import Mathlib

/-!
Shallow embedding of the real-time transcription relay of the repository
(backend/api/consumers/transcription_consumer.py, backend/api/models.py,
backend/api/middleware/websocket_auth.py).

Python strings are modelled as `List Char`, byte strings as `List Nat`.
The Django record store is a list of `Transcription` records indexed by
position (record id = index at creation time).  Database mutations are
made observable as a list of `DbOp` commands emitted by each handler and
applied in order by `applyOp`; recognition-gateway calls are likewise
made observable as the list of byte chunks submitted to the gateway.
The SarvamAI gateway itself is external and is modelled as an oracle
from (audio bytes, language code) to a success/failure result, matching
the `{success, transcription, error}` dictionary returned by
`sarvam_service.transcribe_audio_stream`.
-/

abbrev Bytes := List Nat

abbrev Str := List Char

/-- Python whitespace predicate used by `str.strip()` (ASCII subset). -/
def pyIsSpace (c : Char) : Bool :=
  c == ' ' || c == '\t' || c == '\n' || c == '\r' || c == '\x0b' || c == '\x0c'

/-- Python `str.lstrip()`. -/
def lstrip : Str → Str
  | [] => []
  | c :: cs => if pyIsSpace c then lstrip cs else c :: cs

/-- Python `str.rstrip()`. -/
def rstrip (s : Str) : Str := (lstrip s.reverse).reverse

/-- Python `str.strip()` (strip both ends; order of the two passes is immaterial). -/
def strip (s : Str) : Str := lstrip (rstrip s)

/-- The running transcript as the code builds it: each recognized text is
appended followed by one space (`self.full_transcription += text + " "`). -/
def joinTrail : List Str → Str
  | [] => []
  | t :: ts => t ++ [' '] ++ joinTrail ts

/-- Space-joined concatenation of a list of texts (the spec's join). -/
def spaceJoin : List Str → Str
  | [] => []
  | [t] => t
  | t :: ts => t ++ [' '] ++ spaceJoin ts

/-- Transcription status values (models.py STATUS_CHOICES). -/
inductive Status where
  | pending
  | processing
  | completed
  | failed
deriving DecidableEq, Repr

/-- The durable Transcription record (models.py, the fields the relay touches).
Timestamps are abstract instants (`Option Nat`, `none` = NULL). -/
structure Transcription where
  user : Option Str
  language_code : Str
  transcription_text : Str
  status : Status
  error_message : Str
  session_id : Option Str
  started_at : Option Nat
  completed_at : Option Nat
deriving DecidableEq, Repr

/-- models.py `Transcription.mark_as_processing`. -/
def Transcription.mark_as_processing (t : Transcription) (now : Nat) : Transcription :=
  { t with status := .processing, started_at := some now }

/-- models.py `Transcription.mark_as_completed` (confidence is not set by the relay). -/
def Transcription.mark_as_completed (t : Transcription) (text : Str) (now : Nat) :
    Transcription :=
  { t with status := .completed, transcription_text := text, completed_at := some now }

/-- models.py `Transcription.mark_as_failed`. -/
def Transcription.mark_as_failed (t : Transcription) (msg : Str) (now : Nat) : Transcription :=
  { t with status := .failed, error_message := msg, completed_at := some now }

/-- The record store: record id = index in this list. -/
abbrev Store := List Transcription

/-- Database mutations the consumer can issue, made explicit so that each
handler's persistence behaviour is observable. -/
inductive DbOp where
  | create (user : Option Str) (language_code : Str) (session_id : Option Str)
  | updateAppend (id : Nat) (text : Str)
  | markCompleted (id : Nat) (text : Str)
  | markFailed (id : Nat) (msg : Str)
deriving DecidableEq, Repr

/-- Apply one database mutation.  `create` models
`Transcription.objects.create(..., status='processing')` followed by
`mark_as_processing()`; the three lookup-based ops model the
`Transcription.objects.get` calls, where a missing record
(`DoesNotExist`) is logged and skipped. -/
def applyOp (now : Nat) (store : Store) : DbOp → Store
  | .create u lang sid =>
      store ++ [(Transcription.mk u lang [] .processing [] sid none none).mark_as_processing now]
  | .updateAppend i text =>
      match store[i]? with
      | some t => store.set i
          { t with transcription_text := strip (t.transcription_text ++ [' '] ++ text) }
      | none => store
  | .markCompleted i text =>
      match store[i]? with
      | some t => store.set i (t.mark_as_completed text now)
      | none => store
  | .markFailed i msg =>
      match store[i]? with
      | some t => store.set i (t.mark_as_failed msg now)
      | none => store

/-- Per-connection consumer state (`TranscriptionConsumer.__init__`). -/
structure ConsumerState where
  user : Option Str
  session_id : Option Str
  language_code : Str
  transcription_id : Option Nat
  audio_buffer : Bytes
  full_transcription : Str
deriving DecidableEq, Repr

/-- State right after `__init__` (before `connect`). -/
def initState : ConsumerState :=
  { user := none
    session_id := none
    language_code := "hi-IN".toList
    transcription_id := none
    audio_buffer := []
    full_transcription := [] }

/-- Outbound events: the JSON frames the consumer sends, plus `close code`
for `self.close(code=...)`. -/
inductive OutFrame where
  | connected (session_id : Str) (message : Str)
  | config_confirmed (language_code : Str) (transcription_id : Option Nat)
  | transcription (text : Str) (full_text : Str) (is_final : Bool)
  | final (text : Str) (transcription_id : Option Nat) (language_code : Str)
  | error (message : Str)
  | close (code : Nat)
deriving DecidableEq, Repr

/-- Result of the external recognition gateway: the `{success, transcription,
error}` dictionary of `sarvam_service.transcribe_audio_stream`. -/
inductive RecResult where
  | ok (transcription : Str)
  | err (msg : Str)
deriving DecidableEq, Repr

/-- The recognition gateway as an oracle (audio bytes, language code). -/
abbrev Oracle := Bytes → Str → RecResult

/-- What one frame-handling step produces: the new session state, the outbound
frames sent, the database mutations issued, and the audio chunks submitted to
the recognition gateway, each in order. -/
structure StepResult where
  state : ConsumerState
  outs : List OutFrame
  ops : List DbOp
  calls : List Bytes
deriving DecidableEq, Repr

/-- `TranscriptionConsumer.send_error`: sends an error frame and, when a
transcription record id exists, marks it failed with the same message. -/
def send_error (st : ConsumerState) (msg : Str) : StepResult :=
  { state := st
    outs := [.error msg]
    ops := match st.transcription_id with
           | some i => [.markFailed i msg]
           | none => []
    calls := [] }

/-- `TranscriptionConsumer.process_audio_buffer`: swap the buffer out, call the
gateway; on success append text + space to the running transcript, issue a
partial update and emit a `transcription` frame; on failure emit an error
frame (through `send_error`). -/
def process_audio_buffer (oracle : Oracle) (st : ConsumerState) : StepResult :=
  let audio_data := st.audio_buffer
  let st1 := { st with audio_buffer := [] }
  match oracle audio_data st1.language_code with
  | .ok text =>
      let st2 := { st1 with full_transcription := st1.full_transcription ++ text ++ [' '] }
      { state := st2
        outs := [.transcription text (strip st2.full_transcription) false]
        ops := match st2.transcription_id with
               | some i => [.updateAppend i text]
               | none => []
        calls := [audio_data] }
  | .err m =>
      let r := send_error st1 ("Transcription error: ".toList ++ m)
      { r with calls := [audio_data] }

/-- `TranscriptionConsumer.handle_config`: set the language (default hi-IN),
create a fresh record (id = current store length), reply `config_confirmed`. -/
def handle_config (store : Store) (st : ConsumerState) (lang : Option Str) : StepResult :=
  let language := lang.getD "hi-IN".toList
  let st1 := { st with language_code := language }
  let newId := store.length
  let st2 := { st1 with transcription_id := some newId }
  { state := st2
    outs := [.config_confirmed language (some newId)]
    ops := [.create st2.user language st2.session_id]
    calls := [] }

/-- `TranscriptionConsumer.handle_audio_binary`: append bytes to the buffer
and flush synchronously once the buffer reaches 32000 bytes. -/
def handle_audio_binary (oracle : Oracle) (st : ConsumerState) (audio_bytes : Bytes) :
    StepResult :=
  let st1 := { st with audio_buffer := st.audio_buffer ++ audio_bytes }
  if 32000 ≤ st1.audio_buffer.length then
    process_audio_buffer oracle st1
  else
    { state := st1, outs := [], ops := [], calls := [] }

/-- `TranscriptionConsumer.handle_audio`: base64-decode the payload (the
decoder is external; a frame carries either the decoded bytes or the decode
exception text), then proceed as for binary audio.  A decode failure is
caught and reported via `send_error`. -/
def handle_audio (oracle : Oracle) (st : ConsumerState) (data : Except Str Bytes) :
    StepResult :=
  match data with
  | .error e => send_error st ("Error processing audio: ".toList ++ e)
  | .ok audio_bytes => handle_audio_binary oracle st audio_bytes

/-- `TranscriptionConsumer.handle_end`: flush a non-empty buffer, mark the
record completed with the trimmed transcript, emit the `final` frame. -/
def handle_end (oracle : Oracle) (st : ConsumerState) : StepResult :=
  let r :=
    if 0 < st.audio_buffer.length then process_audio_buffer oracle st
    else { state := st, outs := [], ops := [], calls := [] }
  let st1 := r.state
  let completeOps :=
    match st1.transcription_id with
    | some i => [DbOp.markCompleted i (strip st1.full_transcription)]
    | none => []
  { state := st1
    outs := r.outs ++ [.final (strip st1.full_transcription) st1.transcription_id
                        st1.language_code]
    ops := r.ops ++ completeOps
    calls := r.calls }

/-- Inbound textual frames after JSON parsing: the four message kinds
dispatched by `receive`.  An `audio` frame carries the result of base64
decoding its `data` field. -/
inductive TextMsg where
  | config (language_code : Option Str)
  | audio (data : Except Str Bytes)
  | endStream
  | unknown (mtype : Str)
deriving Repr

/-- Inbound frames: parsed text, unparseable text (JSONDecodeError), or a raw
binary frame. -/
inductive InFrame where
  | text (msg : TextMsg)
  | malformed
  | binary (audio_bytes : Bytes)
deriving Repr

/-- `TranscriptionConsumer.receive`: dispatch one inbound frame. -/
def receive (oracle : Oracle) (store : Store) (st : ConsumerState) : InFrame → StepResult
  | .malformed => send_error st "Invalid JSON format".toList
  | .text (.config lang) => handle_config store st lang
  | .text (.audio data) => handle_audio oracle st data
  | .text .endStream => handle_end oracle st
  | .text (.unknown mtype) => send_error st ("Unknown message type: ".toList ++ mtype)
  | .binary audio_bytes => handle_audio_binary oracle st audio_bytes

/-- websocket_auth.py: a missing token yields `AnonymousUser` (`none`); an
invalid token or unknown user makes the external verifier return `none`. -/
def resolveUser (verify : Str → Option Str) (token : Option Str) : Option Str :=
  match token with
  | none => none
  | some t => verify t

/-- `TranscriptionConsumer.connect`: reject an unauthenticated user with
close code 4001; otherwise accept and send the `connected` frame. -/
def connect (st : ConsumerState) (user : Option Str) (sid : Str) :
    ConsumerState × List OutFrame :=
  match user with
  | none => (st, [.close 4001])
  | some u =>
      ({ st with user := some u, session_id := some sid },
       [.connected sid "Connected to transcription service".toList])

/-- Result of running a whole sequence of frames: final session state, final
store, all outbound frames and all recognition calls in order. -/
structure RunResult where
  state : ConsumerState
  store : Store
  outs : List OutFrame
  calls : List Bytes
deriving DecidableEq, Repr

/-- Run a list of inbound frames through `receive`, threading the session
state and applying each step's database ops to the store in order. -/
def runFrames (oracle : Oracle) (now : Nat) :
    List InFrame → ConsumerState → Store → RunResult
  | [], st, store => { state := st, store := store, outs := [], calls := [] }
  | f :: fs, st, store =>
      let r := receive oracle store st f
      let store1 := r.ops.foldl (applyOp now) store
      let rest := runFrames oracle now fs r.state store1
      { state := rest.state
        store := rest.store
        outs := r.outs ++ rest.outs
        calls := r.calls ++ rest.calls }

/-- A full connection: resolve the credential, run `connect`, and (only when
the connection was accepted) process the inbound frames.  A connection
closed with 4001 before `accept` receives no frames from the transport. -/
def runSession (verify : Str → Option Str) (oracle : Oracle) (now : Nat)
    (token : Option Str) (sid : Str) (frames : List InFrame) (store : Store) : RunResult :=
  let user := resolveUser verify token
  let (st1, couts) := connect initState user sid
  match user with
  | none => { state := st1, store := store, outs := couts, calls := [] }
  | some _ =>
      let r := runFrames oracle now frames st1 store
      { state := r.state, store := r.store, outs := couts ++ r.outs, calls := r.calls }

/-- All audio bytes a frame list feeds into the buffer, in order (decoded
`audio` frames and raw binary frames). -/
def ingestedBytes : List InFrame → Bytes
  | [] => []
  | .text (.audio (.ok b)) :: fs => b ++ ingestedBytes fs
  | .binary b :: fs => b ++ ingestedBytes fs
  | _ :: fs => ingestedBytes fs

/-- Concatenation of the byte chunks submitted to the recognition gateway. -/
def concatBytes : List Bytes → Bytes
  | [] => []
  | b :: bs => b ++ concatBytes bs

/-- A sample authenticated user name for concrete runs. -/
def userW : Str := ['u']

/-- A sample session id for concrete runs. -/
def sidW : Str := ['s']

/-- A record in `processing` state, as `handle_config` creates it. -/
def recProcessing : Transcription :=
  { user := some userW
    language_code := "hi-IN".toList
    transcription_text := []
    status := .processing
    error_message := []
    session_id := some sidW
    started_at := some 1
    completed_at := none }

/-- A connected session that has already processed a `config` frame for
record id 0. -/
def stWithRecord : ConsumerState :=
  { initState with user := some userW, session_id := some sidW, transcription_id := some 0 }

/-- A connected session before any `config` frame. -/
def stAuth : ConsumerState :=
  { initState with user := some userW, session_id := some sidW }

/-- A gateway that always recognizes the text "hello". -/
def oracleOk : Oracle := fun _ _ => .ok "hello".toList

/-- A gateway that always fails with message "x". -/
def oracleErr : Oracle := fun _ _ => .err ['x']

theorem rstrip_append_space (s : Str) : rstrip (s ++ [' ']) = rstrip s := by
  simp [rstrip, lstrip, pyIsSpace]

theorem strip_append_space (s : Str) : strip (s ++ [' ']) = strip s := by
  simp [strip, rstrip_append_space]

theorem joinTrail_append (ts : List Str) (t : Str) :
    joinTrail (ts ++ [t]) = joinTrail ts ++ t ++ [' '] := by
  induction ts with
  | nil => simp [joinTrail]
  | cons a ts ih => simp [joinTrail, ih]

theorem joinTrail_eq_spaceJoin (ts : List Str) (h : ts ≠ []) :
    joinTrail ts = spaceJoin ts ++ [' '] := by
  induction ts with
  | nil => exact absurd rfl h
  | cons a ts ih =>
    cases ts with
    | nil => simp [joinTrail, spaceJoin]
    | cons b ts2 =>
      have h1 : joinTrail (a :: b :: ts2) = a ++ [' '] ++ joinTrail (b :: ts2) := rfl
      have h2 : spaceJoin (a :: b :: ts2) = a ++ [' '] ++ spaceJoin (b :: ts2) := rfl
      rw [h1, h2, ih (by simp)]
      simp

theorem strip_joinTrail (ts : List Str) : strip (joinTrail ts) = strip (spaceJoin ts) := by
  cases ts with
  | nil => rfl
  | cons a ts =>
    rw [joinTrail_eq_spaceJoin _ (by simp)]
    exact strip_append_space _

theorem length_le_applyOp (now : Nat) (store : Store) (op : DbOp) :
    store.length ≤ (applyOp now store op).length := by
  cases op <;> simp only [applyOp] <;> (try split) <;> simp

theorem length_le_foldl_applyOp (now : Nat) (ops : List DbOp) (store : Store) :
    store.length ≤ (ops.foldl (applyOp now) store).length := by
  induction ops generalizing store with
  | nil => simp
  | cons op ops ih => exact le_trans (length_le_applyOp now store op) (ih _)

theorem applyOp_markFailed_get (now : Nat) (store : Store) (i : Nat) (msg : Str)
    (h : i < store.length) :
    (applyOp now store (.markFailed i msg))[i]? =
      some ((store.get ⟨i, h⟩).mark_as_failed msg now) := by
  simp only [applyOp, List.getElem?_eq_getElem h]
  exact List.getElem?_set_eq_of_lt _ h

theorem applyOp_markCompleted_get (now : Nat) (store : Store) (i : Nat) (text : Str)
    (h : i < store.length) :
    (applyOp now store (.markCompleted i text))[i]? =
      some ((store.get ⟨i, h⟩).mark_as_completed text now) := by
  simp only [applyOp, List.getElem?_eq_getElem h]
  exact List.getElem?_set_eq_of_lt _ h

theorem process_calls (oracle : Oracle) (st : ConsumerState) :
    (process_audio_buffer oracle st).calls = [st.audio_buffer] := by
  simp only [process_audio_buffer]
  split <;> simp [send_error]

theorem process_state_buffer (oracle : Oracle) (st : ConsumerState) :
    (process_audio_buffer oracle st).state.audio_buffer = [] := by
  simp only [process_audio_buffer]
  split <;> simp [send_error]

theorem process_state_language (oracle : Oracle) (st : ConsumerState) :
    (process_audio_buffer oracle st).state.language_code = st.language_code := by
  simp only [process_audio_buffer]
  split <;> simp [send_error]

theorem process_state_tid (oracle : Oracle) (st : ConsumerState) :
    (process_audio_buffer oracle st).state.transcription_id = st.transcription_id := by
  simp only [process_audio_buffer]
  split <;> simp [send_error]

theorem concatBytes_append (a b : List Bytes) :
    concatBytes (a ++ b) = concatBytes a ++ concatBytes b := by
  induction a with
  | nil => simp [concatBytes]
  | cons x xs ih => simp [concatBytes, ih]

theorem ingestedBytes_cons (f : InFrame) (fs : List InFrame) :
    ingestedBytes (f :: fs) = ingestedBytes [f] ++ ingestedBytes fs := by
  cases f with
  | text m => cases m with
    | audio d => cases d <;> simp [ingestedBytes]
    | config l => simp [ingestedBytes]
    | endStream => simp [ingestedBytes]
    | unknown t => simp [ingestedBytes]
  | malformed => simp [ingestedBytes]
  | binary b => simp [ingestedBytes]

theorem receive_conservation (oracle : Oracle) (store : Store) (st : ConsumerState)
    (f : InFrame) :
    concatBytes (receive oracle store st f).calls
        ++ (receive oracle store st f).state.audio_buffer
      = st.audio_buffer ++ ingestedBytes [f] := by
  cases f with
  | malformed => simp [receive, send_error, ingestedBytes, concatBytes]
  | binary b =>
      simp only [receive, handle_audio_binary]
      split
      · simp [process_calls, process_state_buffer, ingestedBytes, concatBytes]
      · simp [ingestedBytes, concatBytes]
  | text m => cases m with
    | config l => simp [receive, handle_config, ingestedBytes, concatBytes]
    | unknown t => simp [receive, send_error, ingestedBytes, concatBytes]
    | audio d => cases d with
      | error e => simp [receive, handle_audio, send_error, ingestedBytes, concatBytes]
      | ok b =>
          simp only [receive, handle_audio, handle_audio_binary]
          split
          · simp [process_calls, process_state_buffer, ingestedBytes, concatBytes]
          · simp [ingestedBytes, concatBytes]
    | endStream =>
        simp only [receive, handle_end]
        split
        · simp [process_calls, process_state_buffer, ingestedBytes, concatBytes]
        · simp [ingestedBytes, concatBytes]

theorem runFrames_conservation (oracle : Oracle) (now : Nat) (frames : List InFrame)
    (st : ConsumerState) (store : Store) :
    concatBytes (runFrames oracle now frames st store).calls
        ++ (runFrames oracle now frames st store).state.audio_buffer
      = st.audio_buffer ++ ingestedBytes frames := by
  induction frames generalizing st store with
  | nil => simp [runFrames, concatBytes, ingestedBytes]
  | cons f fs ih =>
      simp only [runFrames, concatBytes_append, List.append_assoc]
      rw [ih]
      rw [← List.append_assoc, receive_conservation, ingestedBytes_cons f fs]
      simp

/-- C8: for every session, after each frame-handling operation (config, audio
in textual or binary form, end, or an error frame) completes, the audio
buffer length is strictly below the 32000-byte flush threshold: any ingest
that reaches the threshold flushes synchronously within the same operation. -/
theorem buffer_stays_below_threshold (oracle : Oracle) (store : Store)
    (st : ConsumerState) (f : InFrame) (hinv : st.audio_buffer.length < 32000) :
    (receive oracle store st f).state.audio_buffer.length < 32000 := by
  cases f with
  | malformed => simpa [receive, send_error] using hinv
  | binary b =>
      simp only [receive, handle_audio_binary]
      split
      · simp [process_state_buffer]
      · rename_i hc
        simpa using Nat.lt_of_not_le (by simpa using hc)
  | text m => cases m with
    | config l => simpa [receive, handle_config] using hinv
    | unknown t => simpa [receive, send_error] using hinv
    | endStream =>
        simp only [receive, handle_end]
        split
        · simp [process_state_buffer]
        · simpa using hinv
    | audio d => cases d with
      | error e => simpa [receive, handle_audio, send_error] using hinv
      | ok b =>
          simp only [receive, handle_audio, handle_audio_binary]
          split
          · simp [process_state_buffer]
          · rename_i hc
            simpa using Nat.lt_of_not_le (by simpa using hc)

theorem buffer_stays_below_threshold_witness :
    initState.audio_buffer.length < 32000 ∧
    ((receive (fun _ _ => .ok []) [] initState
        (.binary [1, 2, 3])).state.audio_buffer.length < 32000) :=
  ⟨by decide, buffer_stays_below_threshold (fun _ _ => .ok []) [] initState
    (.binary [1, 2, 3]) (by decide)⟩

/-- C1: a recognition call is dispatched exactly when the audio buffer
reaches or exceeds 32000 bytes, synchronously within the same `audio` frame,
carrying exactly the bytes accumulated since the previous flush; and over any
frame sequence the dispatched chunks concatenated with the residual buffer
equal all ingested bytes (no byte duplicated, none lost). -/
theorem flush_exactly_at_threshold (oracle : Oracle) (store : Store)
    (st : ConsumerState) (b : Bytes) (_hinv : st.audio_buffer.length < 32000) :
    ((receive oracle store st (.text (.audio (.ok b)))).calls ≠ [] ↔
        32000 ≤ st.audio_buffer.length + b.length)
    ∧ (32000 ≤ st.audio_buffer.length + b.length →
        (receive oracle store st (.text (.audio (.ok b)))).calls = [st.audio_buffer ++ b]
        ∧ (receive oracle store st (.text (.audio (.ok b)))).state.audio_buffer = [])
    ∧ (st.audio_buffer.length + b.length < 32000 →
        (receive oracle store st (.text (.audio (.ok b)))).calls = []
        ∧ (receive oracle store st (.text (.audio (.ok b)))).state.audio_buffer
            = st.audio_buffer ++ b)
    ∧ (∀ now frames st0 store0,
        concatBytes (runFrames oracle now frames st0 store0).calls
            ++ (runFrames oracle now frames st0 store0).state.audio_buffer
          = st0.audio_buffer ++ ingestedBytes frames) := by
  by_cases hc : 32000 ≤ st.audio_buffer.length + b.length
  · have hr : receive oracle store st (.text (.audio (.ok b)))
        = process_audio_buffer oracle { st with audio_buffer := st.audio_buffer ++ b } := by
      simp only [receive, handle_audio, handle_audio_binary]
      rw [if_pos (by simpa using hc)]
    rw [hr]
    refine ⟨?_, ?_, ?_, fun now frames st0 store0 =>
        runFrames_conservation oracle now frames st0 store0⟩
    · simp [process_calls, hc]
    · intro _
      exact ⟨by simp [process_calls], process_state_buffer _ _⟩
    · intro hlt
      omega
  · have hr : receive oracle store st (.text (.audio (.ok b)))
        = { state := { st with audio_buffer := st.audio_buffer ++ b },
            outs := [], ops := [], calls := [] } := by
      simp only [receive, handle_audio, handle_audio_binary]
      rw [if_neg (by simpa using hc)]
    rw [hr]
    refine ⟨?_, fun h => absurd h hc, fun _ => ⟨rfl, rfl⟩,
        fun now frames st0 store0 => runFrames_conservation oracle now frames st0 store0⟩
    simp [hc]

theorem flush_exactly_at_threshold_witness :
    initState.audio_buffer.length < 32000 ∧
    (((receive (fun _ _ => RecResult.ok []) [] initState
          (.text (.audio (.ok (List.replicate 32000 0))))).calls ≠ [] ↔
        32000 ≤ initState.audio_buffer.length + (List.replicate 32000 (0 : Nat)).length)
    ∧ (32000 ≤ initState.audio_buffer.length + (List.replicate 32000 (0 : Nat)).length →
        (receive (fun _ _ => RecResult.ok []) [] initState
            (.text (.audio (.ok (List.replicate 32000 0))))).calls
          = [initState.audio_buffer ++ List.replicate 32000 0]
        ∧ (receive (fun _ _ => RecResult.ok []) [] initState
            (.text (.audio (.ok (List.replicate 32000 0))))).state.audio_buffer = [])
    ∧ (initState.audio_buffer.length + (List.replicate 32000 (0 : Nat)).length < 32000 →
        (receive (fun _ _ => RecResult.ok []) [] initState
            (.text (.audio (.ok (List.replicate 32000 0))))).calls = []
        ∧ (receive (fun _ _ => RecResult.ok []) [] initState
            (.text (.audio (.ok (List.replicate 32000 0))))).state.audio_buffer
            = initState.audio_buffer ++ List.replicate 32000 0)
    ∧ (∀ now frames st0 store0,
        concatBytes (runFrames (fun _ _ => RecResult.ok []) now frames st0 store0).calls
            ++ (runFrames (fun _ _ =>
                  RecResult.ok []) now frames st0 store0).state.audio_buffer
          = st0.audio_buffer ++ ingestedBytes frames)) :=
  ⟨by decide, flush_exactly_at_threshold (fun _ _ => RecResult.ok []) [] initState
    (List.replicate 32000 0) (by decide)⟩

/-- C2: the running transcript is built by appending each recognized text
plus one space, so when the session's transcript so far is the trail-join of
the texts of flushes 1..k-1 (as it is initially for k = 1), a successful
flush k with recognized text t emits a `transcription` frame whose
`full_text` is the space-joined, trimmed concatenation of the texts of
flushes 1..k in submission order, and leaves the transcript in the same
shape for flush k+1. -/
theorem full_text_is_trimmed_join (oracle : Oracle) (st : ConsumerState)
    (ts : List Str) (t : Str)
    (hfull : st.full_transcription = joinTrail ts)
    (hok : oracle st.audio_buffer st.language_code = .ok t) :
    (process_audio_buffer oracle st).outs
        = [.transcription t (strip (spaceJoin (ts ++ [t]))) false]
    ∧ (process_audio_buffer oracle st).state.full_transcription = joinTrail (ts ++ [t]) := by
  have key : strip (st.full_transcription ++ (t ++ [' '])) = strip (spaceJoin (ts ++ [t])) := by
    rw [hfull, ← List.append_assoc, ← joinTrail_append, strip_joinTrail]
  constructor
  · simp only [process_audio_buffer]
    rw [show ({ st with audio_buffer := [] } : ConsumerState).language_code
          = st.language_code from rfl, hok]
    simp [key]
  · simp only [process_audio_buffer]
    rw [show ({ st with audio_buffer := [] } : ConsumerState).language_code
          = st.language_code from rfl, hok]
    simp [hfull, joinTrail_append]

theorem full_text_is_trimmed_join_witness :
    initState.full_transcription = joinTrail [] ∧
    (fun _ _ => RecResult.ok "hello".toList) initState.audio_buffer
        initState.language_code = .ok "hello".toList ∧
    ((process_audio_buffer (fun _ _ => RecResult.ok "hello".toList) initState).outs
        = [.transcription "hello".toList
            (strip (spaceJoin ([] ++ ["hello".toList]))) false]
    ∧ (process_audio_buffer (fun _ _ =>
          RecResult.ok "hello".toList) initState).state.full_transcription
        = joinTrail ([] ++ ["hello".toList])) :=
  ⟨rfl, rfl, full_text_is_trimmed_join (fun _ _ => RecResult.ok "hello".toList)
    initState [] "hello".toList rfl rfl⟩

theorem foldl_markCompleted_last (now : Nat) (store : Store) (pre : List DbOp)
    (i : Nat) (text : Str) (h : i < store.length) :
    ∃ tr, ((pre ++ [DbOp.markCompleted i text]).foldl (applyOp now) store)[i]? = some tr
      ∧ tr.status = .completed ∧ tr.transcription_text = text
      ∧ tr.completed_at = some now := by
  rw [List.foldl_append]
  have h1 : i < (pre.foldl (applyOp now) store).length :=
    lt_of_lt_of_le h (length_le_foldl_applyOp now pre store)
  refine ⟨((pre.foldl (applyOp now) store).get ⟨i, h1⟩).mark_as_completed text now, ?_, rfl, rfl, rfl⟩
  simpa [List.foldl] using
    applyOp_markCompleted_get now (pre.foldl (applyOp now) store) i text h1

/-- C5: on an `end` frame, a non-empty buffer is flushed exactly once (with
exactly the buffered bytes) before finalization, an empty buffer triggers no
recognition call and yields a `final` frame whose text is the last known
trimmed transcript; in both cases the record is marked completed with the
final trimmed text and a completion instant, and the `final` frame carries
the full trimmed text, the record id, and the language code. -/
theorem end_finalizes (oracle : Oracle) (now : Nat) (store : Store) (st : ConsumerState)
    (i : Nat) (hid : st.transcription_id = some i) (hlt : i < store.length) :
    (st.audio_buffer ≠ [] →
        (receive oracle store st (.text .endStream)).calls = [st.audio_buffer])
    ∧ (st.audio_buffer = [] →
        (receive oracle store st (.text .endStream)).calls = []
        ∧ (receive oracle store st (.text .endStream)).outs
            = [.final (strip st.full_transcription) (some i) st.language_code])
    ∧ (receive oracle store st (.text .endStream)).outs.getLast?
        = some (.final
            (strip (receive oracle store st (.text .endStream)).state.full_transcription)
            (some i) st.language_code)
    ∧ ∃ tr,
        ((receive oracle store st (.text .endStream)).ops.foldl (applyOp now) store)[i]?
            = some tr
        ∧ tr.status = .completed
        ∧ tr.transcription_text
            = strip (receive oracle store st (.text .endStream)).state.full_transcription
        ∧ tr.completed_at = some now := by
  by_cases hbuf : st.audio_buffer = []
  · have hr : receive oracle store st (.text .endStream)
        = { state := st,
            outs := [.final (strip st.full_transcription) (some i) st.language_code],
            ops := [DbOp.markCompleted i (strip st.full_transcription)],
            calls := [] } := by
      have hcond : ¬ 0 < st.audio_buffer.length := by simp [hbuf]
      simp only [receive, handle_end, if_neg hcond]
      simp [hid]
    rw [hr]
    refine ⟨fun h => absurd hbuf h, fun _ => ⟨rfl, rfl⟩, by simp, ?_⟩
    simpa using foldl_markCompleted_last now store [] i (strip st.full_transcription) hlt
  · have hpos : 0 < st.audio_buffer.length := by
      cases hb : st.audio_buffer with
      | nil => exact absurd hb hbuf
      | cons x xs => simp [hb]
    have hr : receive oracle store st (.text .endStream)
        = { state := (process_audio_buffer oracle st).state,
            outs := (process_audio_buffer oracle st).outs
              ++ [.final
                  (strip (process_audio_buffer oracle st).state.full_transcription)
                  (some i) st.language_code],
            ops := (process_audio_buffer oracle st).ops
              ++ [DbOp.markCompleted i
                  (strip (process_audio_buffer oracle st).state.full_transcription)],
            calls := (process_audio_buffer oracle st).calls } := by
      simp only [receive, handle_end, if_pos hpos]
      simp [process_state_tid, process_state_language, hid]
    rw [hr]
    refine ⟨fun _ => by simp [process_calls], fun h => absurd h hbuf, ?_, ?_⟩
    · simp [List.getLast?_concat]
    · exact foldl_markCompleted_last now store (process_audio_buffer oracle st).ops i
        (strip (process_audio_buffer oracle st).state.full_transcription) hlt

theorem end_finalizes_witness :
    stWithRecord.transcription_id = some 0 ∧ 0 < [recProcessing].length ∧
    ((stWithRecord.audio_buffer ≠ [] →
        (receive oracleOk [recProcessing] stWithRecord (.text .endStream)).calls
          = [stWithRecord.audio_buffer])
    ∧ (stWithRecord.audio_buffer = [] →
        (receive oracleOk [recProcessing] stWithRecord (.text .endStream)).calls = []
        ∧ (receive oracleOk [recProcessing] stWithRecord (.text .endStream)).outs
            = [.final (strip stWithRecord.full_transcription) (some 0)
                stWithRecord.language_code])
    ∧ (receive oracleOk [recProcessing] stWithRecord (.text .endStream)).outs.getLast?
        = some (.final
            (strip (receive oracleOk [recProcessing] stWithRecord
                (.text .endStream)).state.full_transcription)
            (some 0) stWithRecord.language_code)
    ∧ ∃ tr,
        ((receive oracleOk [recProcessing] stWithRecord
            (.text .endStream)).ops.foldl (applyOp 7) [recProcessing])[0]?
            = some tr
        ∧ tr.status = .completed
        ∧ tr.transcription_text
            = strip (receive oracleOk [recProcessing] stWithRecord
                (.text .endStream)).state.full_transcription
        ∧ tr.completed_at = some 7) :=
  ⟨rfl, by decide,
    end_finalizes oracleOk 7 [recProcessing] stWithRecord 0 rfl (by decide)⟩

/-- C7: a connection attempt with no credential or an invalid credential is
closed with the reserved unauthenticated code 4001 before any protocol frame
is processed: whatever frames arrive, no handling occurs, no recognition
call is dispatched, the session state stays at its initial value, and no
TranscriptionRecord is ever created (the store is unchanged). -/
theorem auth_gate (verify : Str → Option Str) (oracle : Oracle) (now : Nat)
    (token : Option Str) (sid : Str) (frames : List InFrame) (store : Store)
    (h : resolveUser verify token = none) :
    runSession verify oracle now token sid frames store
      = { state := initState, store := store, outs := [.close 4001], calls := [] } := by
  simp [runSession, connect, h]

theorem auth_gate_witness :
    resolveUser (fun _ => none) (some ['t']) = none ∧
    runSession (fun _ => none) oracleOk 3 (some ['t']) sidW
        [.text (.config none)] []
      = { state := initState, store := [], outs := [.close 4001], calls := [] } :=
  ⟨rfl, auth_gate (fun _ => none) oracleOk 3 (some ['t']) sidW
    [.text (.config none)] [] rfl⟩

/-- C9: every `config` frame — also a repeated one in the same session —
creates one new TranscriptionRecord with status `processing` and a start
instant, replies `config_confirmed` with the newly assigned record id, and
leaves every previously existing record untouched (so a repeated `config`
yields a new duplicate record without invalidating or modifying the earlier
one; the statement is over an arbitrary store and state, hence applies to
the second `config` as well). -/
theorem config_creates_new_record (oracle : Oracle) (now : Nat) (store : Store)
    (st : ConsumerState) (lang : Option Str) :
    (receive oracle store st (.text (.config lang))).state.transcription_id
        = some store.length
    ∧ (receive oracle store st (.text (.config lang))).outs
        = [.config_confirmed (lang.getD "hi-IN".toList) (some store.length)]
    ∧ (receive oracle store st (.text (.config lang))).calls = []
    ∧ ((receive oracle store st (.text (.config lang))).ops.foldl
          (applyOp now) store).length = store.length + 1
    ∧ (∃ tr, ((receive oracle store st (.text (.config lang))).ops.foldl
            (applyOp now) store)[store.length]? = some tr
        ∧ tr.status = .processing ∧ tr.started_at = some now
        ∧ tr.language_code = lang.getD "hi-IN".toList
        ∧ tr.session_id = st.session_id)
    ∧ (∀ j, j < store.length →
        ((receive oracle store st (.text (.config lang))).ops.foldl
            (applyOp now) store)[j]? = store[j]?) := by
  have hr : receive oracle store st (.text (.config lang))
      = { state := { st with language_code := lang.getD "hi-IN".toList, transcription_id := some store.length },
          outs := [.config_confirmed (lang.getD "hi-IN".toList) (some store.length)],
          ops := [.create st.user (lang.getD "hi-IN".toList) st.session_id],
          calls := [] } := by
    simp [receive, handle_config]
  rw [hr]
  refine ⟨rfl, rfl, rfl, ?_, ?_, ?_⟩
  · simp [applyOp]
  · refine ⟨(Transcription.mk st.user (lang.getD "hi-IN".toList) [] .processing []
        st.session_id none none).mark_as_processing now, ?_, rfl, rfl, rfl, rfl⟩
    simp only [List.foldl, applyOp]
    exact List.getElem?_concat_length store
      ((Transcription.mk st.user (lang.getD "hi-IN".toList) [] .processing []
        st.session_id none none).mark_as_processing now)
  · intro j hj
    simpa [applyOp] using List.getElem?_append_left hj

theorem config_creates_new_record_witness :
    ((receive oracleOk [] stAuth (.text (.config none))).state.transcription_id
        = some 0)
    ∧ (receive oracleOk [] stAuth (.text (.config none))).outs
        = [.config_confirmed (Option.getD none "hi-IN".toList) (some 0)]
    ∧ (receive oracleOk [] stAuth (.text (.config none))).calls = []
    ∧ ((receive oracleOk [] stAuth (.text (.config none))).ops.foldl
          (applyOp 2) []).length = 0 + 1
    ∧ (∃ tr, ((receive oracleOk [] stAuth (.text (.config none))).ops.foldl
            (applyOp 2) [])[(0 : Nat)]? = some tr
        ∧ tr.status = .processing ∧ tr.started_at = some 2
        ∧ tr.language_code = Option.getD none "hi-IN".toList
        ∧ tr.session_id = stAuth.session_id)
    ∧ (∀ j, j < (0 : Nat) →
        ((receive oracleOk [] stAuth (.text (.config none))).ops.foldl
            (applyOp 2) [])[j]? = ([] : Store)[j]?) := by
  simpa using config_creates_new_record oracleOk 2 [] stAuth none

theorem calls_on_threshold (oracle : Oracle) (store : Store) (st2 : ConsumerState)
    (b2 : Bytes) (h : 32000 ≤ (st2.audio_buffer ++ b2).length) :
    (receive oracle store st2 (.text (.audio (.ok b2)))).calls
      = [st2.audio_buffer ++ b2] := by
  simp only [receive, handle_audio, handle_audio_binary]
  rw [if_pos (by simpa using h)]
  simp [process_calls]

/-- C6: when the recognition call of a flush fails, an error frame (and no
close event) is emitted, the TranscriptionRecord is marked failed with the
reported message and a completion instant, the buffer is left empty, and a
later audio frame that again reaches the threshold still dispatches the next
recognition call — the session remains usable. -/
theorem recognition_failure_isolated (oracle : Oracle) (now : Nat) (store : Store)
    (st : ConsumerState) (b : Bytes) (m : Str) (i : Nat)
    (hid : st.transcription_id = some i) (hlt : i < store.length)
    (hthresh : 32000 ≤ st.audio_buffer.length + b.length)
    (herr : oracle (st.audio_buffer ++ b) st.language_code = .err m) :
    (receive oracle store st (.text (.audio (.ok b)))).outs
        = [.error ("Transcription error: ".toList ++ m)]
    ∧ (receive oracle store st (.text (.audio (.ok b)))).calls = [st.audio_buffer ++ b]
    ∧ (∀ c, OutFrame.close c ∉ (receive oracle store st (.text (.audio (.ok b)))).outs)
    ∧ (∃ tr, ((receive oracle store st (.text (.audio (.ok b)))).ops.foldl
            (applyOp now) store)[i]? = some tr
        ∧ tr.status = .failed
        ∧ tr.error_message = "Transcription error: ".toList ++ m
        ∧ tr.completed_at = some now)
    ∧ (receive oracle store st (.text (.audio (.ok b)))).state.audio_buffer = []
    ∧ (∀ b2 : Bytes, 32000 ≤ b2.length →
        (receive oracle store
            (receive oracle store st (.text (.audio (.ok b)))).state
            (.text (.audio (.ok b2)))).calls = [b2]) := by
  have hcond : 32000 ≤
      (({ st with audio_buffer := st.audio_buffer ++ b } : ConsumerState)).audio_buffer.length := by
    simpa using hthresh
  have hr : receive oracle store st (.text (.audio (.ok b)))
      = { state := { st with audio_buffer := [] },
          outs := [.error ("Transcription error: ".toList ++ m)],
          ops := [.markFailed i ("Transcription error: ".toList ++ m)],
          calls := [st.audio_buffer ++ b] } := by
    simp only [receive, handle_audio, handle_audio_binary, if_pos hcond,
      process_audio_buffer]
    rw [herr]
    simp [send_error, hid]
  rw [hr]
  refine ⟨rfl, rfl, by simp, ?_, rfl, ?_⟩
  · refine ⟨(store.get ⟨i, hlt⟩).mark_as_failed ("Transcription error: ".toList ++ m) now,
      ?_, rfl, rfl, rfl⟩
    simpa [List.foldl] using
      applyOp_markFailed_get now store i ("Transcription error: ".toList ++ m) hlt
  · intro b2 hb2
    have h2 : 32000 ≤
        ((({ st with audio_buffer := ([] : Bytes) } : ConsumerState)).audio_buffer
          ++ b2).length := by
      simpa using hb2
    simpa using calls_on_threshold oracle store
      { st with audio_buffer := ([] : Bytes) } b2 h2

theorem recognition_failure_isolated_witness :
    stWithRecord.transcription_id = some 0 ∧ 0 < [recProcessing].length ∧
    32000 ≤ stWithRecord.audio_buffer.length + (List.replicate 32000 (0 : Nat)).length ∧
    oracleErr (stWithRecord.audio_buffer ++ List.replicate 32000 0)
        stWithRecord.language_code = .err ['x'] ∧
    ((receive oracleErr [recProcessing] stWithRecord
          (.text (.audio (.ok (List.replicate 32000 0))))).outs
        = [.error ("Transcription error: ".toList ++ ['x'])]
    ∧ (receive oracleErr [recProcessing] stWithRecord
          (.text (.audio (.ok (List.replicate 32000 0))))).calls
        = [stWithRecord.audio_buffer ++ List.replicate 32000 0]
    ∧ (∀ c, OutFrame.close c ∉ (receive oracleErr [recProcessing] stWithRecord
          (.text (.audio (.ok (List.replicate 32000 0))))).outs)
    ∧ (∃ tr, ((receive oracleErr [recProcessing] stWithRecord
            (.text (.audio (.ok (List.replicate 32000 0))))).ops.foldl
            (applyOp 9) [recProcessing])[(0 : Nat)]? = some tr
        ∧ tr.status = .failed
        ∧ tr.error_message = "Transcription error: ".toList ++ ['x']
        ∧ tr.completed_at = some 9)
    ∧ (receive oracleErr [recProcessing] stWithRecord
          (.text (.audio (.ok (List.replicate 32000 0))))).state.audio_buffer = []
    ∧ (∀ b2 : Bytes, 32000 ≤ b2.length →
        (receive oracleErr [recProcessing]
            (receive oracleErr [recProcessing] stWithRecord
              (.text (.audio (.ok (List.replicate 32000 0))))).state
            (.text (.audio (.ok b2)))).calls = [b2])) :=
  ⟨rfl, by decide,
    by rw [show stWithRecord.audio_buffer = [] from rfl, List.length_nil,
         List.length_replicate],
    rfl,
    recognition_failure_isolated oracleErr 9 [recProcessing] stWithRecord
      (List.replicate 32000 0) ['x'] 0 rfl (by decide)
      (by rw [show stWithRecord.audio_buffer = [] from rfl, List.length_nil,
           List.length_replicate])
      rfl⟩

theorem process_error_mem (oracle : Oracle) (st : ConsumerState) (i : Nat) (m : Str)
    (hid : st.transcription_id = some i)
    (hm : OutFrame.error m ∈ (process_audio_buffer oracle st).outs) :
    DbOp.markFailed i m ∈ (process_audio_buffer oracle st).ops := by
  revert hm
  simp only [process_audio_buffer]
  split
  · intro hm
    simp at hm
  · intro hm
    simp [send_error] at hm ⊢
    simp [hid, hm]

/-- C10: whenever an error frame is reported to the client while a
transcription record id is set, the record is marked failed with the same
message: `send_error` emits exactly the error frame together with the
mark-failed mutation, applying that mutation sets status `failed`, the error
message and a completion instant, and every frame-handling path that emits
an error frame also issues the corresponding mark-failed mutation — for
every error kind (malformed JSON, unknown message type, audio decode error,
recognition failure, including the final flush during `end`). -/
theorem error_marks_record_failed (oracle : Oracle) (now : Nat) (store : Store)
    (st : ConsumerState) (i : Nat)
    (hid : st.transcription_id = some i) (hlt : i < store.length) :
    (∀ msg, (send_error st msg).outs = [.error msg]
      ∧ (send_error st msg).ops = [.markFailed i msg]
      ∧ ∃ tr, (applyOp now store (.markFailed i msg))[i]? = some tr
          ∧ tr.status = .failed ∧ tr.error_message = msg
          ∧ tr.completed_at = some now)
    ∧ (∀ f m, OutFrame.error m ∈ (receive oracle store st f).outs →
        DbOp.markFailed i m ∈ (receive oracle store st f).ops) := by
  constructor
  · intro msg
    refine ⟨rfl, by simp [send_error, hid], ?_⟩
    exact ⟨(store.get ⟨i, hlt⟩).mark_as_failed msg now,
      applyOp_markFailed_get now store i msg hlt, rfl, rfl, rfl⟩
  · intro f m hm
    cases f with
    | malformed =>
        simp [receive, send_error, hid] at hm ⊢
        exact hm
    | binary b =>
        revert hm
        simp only [receive, handle_audio_binary]
        split
        · exact process_error_mem oracle _ i m hid
        · intro hm
          simp at hm
    | text msg =>
        cases msg with
        | config l =>
            simp [receive, handle_config] at hm
        | unknown t =>
            simp [receive, send_error, hid] at hm ⊢
            exact hm
        | audio d =>
            cases d with
            | error e =>
                simp [receive, handle_audio, send_error, hid] at hm ⊢
                exact hm
            | ok b =>
                revert hm
                simp only [receive, handle_audio, handle_audio_binary]
                split
                · exact process_error_mem oracle _ i m hid
                · intro hm
                  simp at hm
        | endStream =>
            revert hm
            simp only [receive, handle_end]
            by_cases hb : 0 < st.audio_buffer.length
            · rw [if_pos hb]
              intro hm
              rw [List.mem_append] at hm
              rcases hm with hm | hm
              · exact List.mem_append_left _ (process_error_mem oracle st i m hid hm)
              · simp at hm
            · rw [if_neg hb]
              intro hm
              simp at hm

theorem error_marks_record_failed_witness :
    stWithRecord.transcription_id = some 0 ∧ 0 < [recProcessing].length ∧
    ((∀ msg, (send_error stWithRecord msg).outs = [.error msg]
      ∧ (send_error stWithRecord msg).ops = [.markFailed 0 msg]
      ∧ ∃ tr, (applyOp 11 [recProcessing] (.markFailed 0 msg))[(0 : Nat)]? = some tr
          ∧ tr.status = .failed ∧ tr.error_message = msg
          ∧ tr.completed_at = some 11)
    ∧ (∀ f m, OutFrame.error m ∈ (receive oracleOk [recProcessing] stWithRecord f).outs →
        DbOp.markFailed 0 m ∈ (receive oracleOk [recProcessing] stWithRecord f).ops)) :=
  ⟨rfl, by decide,
    error_marks_record_failed oracleOk 11 [recProcessing] stWithRecord 0 rfl (by decide)⟩

/-- C3, counterexample: after `config` and a subsequent error (which marks
the record failed — a terminal state), an `end` frame marks the same record
completed: the code does transition a record out of a terminal state. -/
theorem status_leaves_terminal_cex :
    ((runFrames oracleOk 7 [.text (.config none), .malformed] stAuth []).store.map
        Transcription.status = [Status.failed])
    ∧ ((runFrames oracleOk 7 [.text (.config none), .malformed, .text .endStream]
        stAuth []).store.map Transcription.status = [Status.completed]) := by
  decide

/-- C3 (amended): any database mutation that changes a record's status in
place sets it to `completed` or `failed` (in particular a record never
returns to `pending`); the original monotonicity claim fails because
terminal states are not guarded — finalization marks even a failed record
completed, and a later error marks even a completed record failed. -/
theorem status_change_is_terminal (now : Nat) (store : Store) (op : DbOp) (j : Nat)
    (t t' : Transcription)
    (hb : store[j]? = some t) (ha : (applyOp now store op)[j]? = some t')
    (hne : t'.status ≠ t.status) :
    t'.status = .completed ∨ t'.status = .failed := by
  have hj : j < store.length := (List.getElem?_eq_some.mp hb).1
  cases op with
  | create u lang sid =>
      rw [applyOp, List.getElem?_append_left hj, hb] at ha
      exact absurd (by rw [Option.some_inj.mp ha]) hne
  | updateAppend i text =>
      simp only [applyOp] at ha
      cases hsi : store[i]? with
      | none =>
          simp only [hsi, hb] at ha
          exact absurd (by rw [Option.some_inj.mp ha]) hne
      | some u =>
          simp only [hsi] at ha
          by_cases hji : j = i
          · subst hji
            rw [List.getElem?_set_eq_of_lt _ hj] at ha
            have hut : u = t := Option.some_inj.mp (hsi ▸ hb)
            have ht' : t'.status = u.status := by rw [← Option.some_inj.mp ha]
            rw [ht', hut] at hne
            exact absurd rfl hne
          · rw [List.getElem?_set_ne (fun he => hji he.symm), hb] at ha
            exact absurd (by rw [Option.some_inj.mp ha]) hne
  | markCompleted i text =>
      simp only [applyOp] at ha
      cases hsi : store[i]? with
      | none =>
          simp only [hsi, hb] at ha
          exact absurd (by rw [Option.some_inj.mp ha]) hne
      | some u =>
          simp only [hsi] at ha
          by_cases hji : j = i
          · subst hji
            rw [List.getElem?_set_eq_of_lt _ hj] at ha
            left
            rw [← Option.some_inj.mp ha]
            rfl
          · rw [List.getElem?_set_ne (fun he => hji he.symm), hb] at ha
            exact absurd (by rw [Option.some_inj.mp ha]) hne
  | markFailed i msg =>
      simp only [applyOp] at ha
      cases hsi : store[i]? with
      | none =>
          simp only [hsi, hb] at ha
          exact absurd (by rw [Option.some_inj.mp ha]) hne
      | some u =>
          simp only [hsi] at ha
          by_cases hji : j = i
          · subst hji
            rw [List.getElem?_set_eq_of_lt _ hj] at ha
            right
            rw [← Option.some_inj.mp ha]
            rfl
          · rw [List.getElem?_set_ne (fun he => hji he.symm), hb] at ha
            exact absurd (by rw [Option.some_inj.mp ha]) hne

theorem status_change_is_terminal_witness :
    ([recProcessing] : Store)[(0 : Nat)]? = some recProcessing ∧
    (applyOp 4 [recProcessing] (.markFailed 0 ['e']))[(0 : Nat)]?
      = some (recProcessing.mark_as_failed ['e'] 4) ∧
    (recProcessing.mark_as_failed ['e'] 4).status ≠ recProcessing.status ∧
    ((recProcessing.mark_as_failed ['e'] 4).status = .completed ∨
      (recProcessing.mark_as_failed ['e'] 4).status = .failed) :=
  ⟨by decide, by decide, by decide,
    status_change_is_terminal 4 [recProcessing] (.markFailed 0 ['e']) 0
      recProcessing (recProcessing.mark_as_failed ['e'] 4)
      (by decide) (by decide) (by decide)⟩

/-- C4, counterexample: a malformed frame arriving while a record exists
does not leave the TranscriptionRecord as it was — the record's status
changes from `processing` to `failed`, because `send_error` marks the
record failed. -/
theorem malformed_marks_record_cex :
    ((receive oracleOk [recProcessing] stWithRecord .malformed).ops.foldl
        (applyOp 5) [recProcessing]).map Transcription.status = [Status.failed]
    ∧ ([recProcessing] : Store).map Transcription.status = [Status.processing] := by
  decide

/-- C4 (amended): a malformed textual frame, or an audio frame whose payload
cannot be decoded, yields exactly one error frame, leaves the whole session
state (audio buffer, accumulated text, language code, record id) unchanged
and dispatches no recognition call; when no record exists the store is also
unchanged, but when a record exists it is marked failed with the error
message rather than left untouched. -/
theorem decode_error_effects (oracle : Oracle) (now : Nat) (store : Store)
    (st : ConsumerState) (e : Str) :
    (receive oracle store st .malformed).outs = [.error "Invalid JSON format".toList]
    ∧ (receive oracle store st .malformed).state = st
    ∧ (receive oracle store st .malformed).calls = []
    ∧ (st.transcription_id = none →
        (receive oracle store st .malformed).ops.foldl (applyOp now) store = store)
    ∧ (∀ i, st.transcription_id = some i →
        (receive oracle store st .malformed).ops
          = [.markFailed i "Invalid JSON format".toList])
    ∧ (receive oracle store st (.text (.audio (.error e)))).outs
        = [.error ("Error processing audio: ".toList ++ e)]
    ∧ (receive oracle store st (.text (.audio (.error e)))).state = st
    ∧ (receive oracle store st (.text (.audio (.error e)))).calls = []
    ∧ (st.transcription_id = none →
        (receive oracle store st (.text (.audio (.error e)))).ops.foldl
          (applyOp now) store = store)
    ∧ (∀ i, st.transcription_id = some i →
        (receive oracle store st (.text (.audio (.error e)))).ops
          = [.markFailed i ("Error processing audio: ".toList ++ e)]) := by
  refine ⟨rfl, rfl, rfl, ?_, ?_, rfl, rfl, rfl, ?_, ?_⟩
  · intro h
    simp [receive, send_error, h]
  · intro i h
    simp [receive, send_error, h]
  · intro h
    simp [receive, handle_audio, send_error, h]
  · intro i h
    simp [receive, handle_audio, send_error, h]

theorem decode_error_effects_witness :
    stAuth.transcription_id = none ∧ stWithRecord.transcription_id = some 0 ∧
    ((receive oracleOk [] stAuth .malformed).outs
        = [.error "Invalid JSON format".toList]
    ∧ (receive oracleOk [] stAuth .malformed).state = stAuth
    ∧ (receive oracleOk [] stAuth .malformed).calls = []
    ∧ (stAuth.transcription_id = none →
        (receive oracleOk [] stAuth .malformed).ops.foldl (applyOp 6) [] = [])
    ∧ (∀ i, stAuth.transcription_id = some i →
        (receive oracleOk [] stAuth .malformed).ops
          = [.markFailed i "Invalid JSON format".toList])
    ∧ (receive oracleOk [] stAuth (.text (.audio (.error ['b'])))).outs
        = [.error ("Error processing audio: ".toList ++ ['b'])]
    ∧ (receive oracleOk [] stAuth (.text (.audio (.error ['b'])))).state = stAuth
    ∧ (receive oracleOk [] stAuth (.text (.audio (.error ['b'])))).calls = []
    ∧ (stAuth.transcription_id = none →
        (receive oracleOk [] stAuth (.text (.audio (.error ['b'])))).ops.foldl
          (applyOp 6) [] = [])
    ∧ (∀ i, stAuth.transcription_id = some i →
        (receive oracleOk [] stAuth (.text (.audio (.error ['b'])))).ops
          = [.markFailed i ("Error processing audio: ".toList ++ ['b'])])) :=
  ⟨rfl, rfl, decode_error_effects oracleOk 6 [] stAuth ['b']⟩
